import Mathlib

/-!
Shallow embedding of the turn-orchestration engine of the AI-Chatbot-Agent
repository (package `cob_demo_agent`), covering:

- `utils/errors.py` (`classify_exception`),
- `sre/langgraph_app.py` (the node functions `router_node`, `rag_node`,
  `booking_llm_node`, `tools_wrapper`, `handoff_node`, the continuation
  predicate `booking_should_continue`, and the booking tool loop wiring),
- `sre/graph_service.py` (`GraphService.invoke`: the retry loop and the
  per-turn input passed to the compiled graph),
- `sre/booking_agent/tools.py` (`core_check_slot_availability`,
  `core_book_slot`).

LangGraph specifics that the embedding models explicitly:
- graph state is a typed record; a node returns a partial update;
- the `messages` channel uses the `add_messages` reducer, which upserts by
  message id (a message whose id already exists replaces it, otherwise it
  is appended); all the other channels are last-value channels;
- on an existing thread the checkpointer restores the previous state and the
  input of `invoke` is applied to it as an ordinary partial update.

The opaque generation collaborators (the router / booking / handoff /
RAG LLMs) are modelled as oracle functions passed in as parameters, so the
theorems quantify over every possible generator behavior.
-/

set_option autoImplicit false

namespace CobAgent

/-! ## String helpers: case-insensitive substring search (`x in s.lower()`) -/

/-- Boolean test that the first character list is a prefix of the second. -/
def charsPrefix : List Char → List Char → Bool
  | [], _ => true
  | _ :: _, [] => false
  | a :: as, b :: bs => a == b && charsPrefix as bs

/-- Boolean test that `needle` occurs as a contiguous run inside the second list. -/
def charsContains (needle : List Char) : List Char → Bool
  | [] => needle.isEmpty
  | c :: rest => charsPrefix needle (c :: rest) || charsContains needle rest

/-- Python's `needle in hay` on strings: contiguous substring occurrence. -/
def containsSub (hay needle : String) : Bool :=
  charsContains needle.data hay.data

/-- Python's `str.lower()` restricted to ASCII, which covers every signal
substring the classifier tests.  Implemented by structural recursion over the
character list so that it evaluates inside the kernel. -/
def lowerStr (s : String) : String :=
  ⟨s.data.map Char.toLower⟩

/-! ## `utils/errors.py` -/

/-- Embeds the dataclass `ErrorInfo` of `utils/errors.py`. -/
structure ErrorInfo where
  kind : String
  message : String
  status_code : Int
  retryable : Bool
  raw : Option String
  deriving DecidableEq, Repr

/-- The first guard of `classify_exception`: quota / rate limit signals. -/
def quotaSignal (low : String) : Bool :=
  containsSub low "resource exhausted" || containsSub low "quota" ||
    containsSub low "rate limit" || containsSub low "429"

/-- The second guard of `classify_exception`: timeout / transient signals. -/
def transientSignal (low : String) : Bool :=
  containsSub low "timeout" || containsSub low "timed out" ||
    containsSub low "temporarily unavailable" || containsSub low "503"

/-- The third guard of `classify_exception`: provider-side bad request signals. -/
def badRequestSignal (low : String) : Bool :=
  containsSub low "invalid" || containsSub low "bad request" || containsSub low "400"

/-- Embeds `classify_exception` of `utils/errors.py`.  The Python function
receives the exception object and works on `msg = str(exc)`; the embedding
takes that textual representation directly. -/
def classify_exception (msg : String) : ErrorInfo :=
  let low := lowerStr msg
  if quotaSignal low then
    { kind := "MODEL_QUOTA_EXCEEDED",
      message := "Model quota/rate limit exceeded. Please retry later.",
      status_code := 429, retryable := true, raw := some msg }
  else if transientSignal low then
    { kind := "TRANSIENT_UPSTREAM_ERROR",
      message := "Upstream service temporarily unavailable. Please retry.",
      status_code := 503, retryable := true, raw := some msg }
  else if badRequestSignal low then
    { kind := "UPSTREAM_BAD_REQUEST",
      message := "Upstream rejected the request (invalid input/config).",
      status_code := 400, retryable := false, raw := some msg }
  else
    { kind := "INTERNAL_ERROR",
      message := "Unexpected server error.",
      status_code := 500, retryable := false, raw := some msg }

/-! ## Graph data model (`sre/langgraph_app.py`) -/

/-- Message author role, mirroring the LangChain message classes
(`HumanMessage`, `AIMessage`, `SystemMessage`, `ToolMessage`). -/
inductive Role where
  | user
  | assistant
  | system
  | tool
  deriving DecidableEq, Repr

/-- A proposed tool call: tool name plus argument map (key/value pairs). -/
structure ToolCall where
  name : String
  args : List (String × String)
  deriving DecidableEq, Repr

/-- One conversation message.  LangGraph assigns every message an id when it
is first stored and the `add_messages` reducer upserts by that id; a freshly
generated message that has not been stored yet carries `id = none`. -/
structure Msg where
  id : Option Nat
  role : Role
  content : String
  tool_calls : List ToolCall
  deriving DecidableEq, Repr

/-- The `route` literal of the graph `State`. -/
inductive Route where
  | general
  | kb
  | booking
  | handoff
  deriving DecidableEq, Repr

/-- Embeds the TypedDict `State` of `sre/langgraph_app.py`.  The counters are
integers exactly as in Python; nonnegativity is proved, not assumed. -/
structure State where
  messages : List Msg
  route : Route
  rag_meta_ids : List String
  handoff_required : Bool
  handoff_reason : String
  booking_tool_steps : Int
  last_tool_signature : String
  repeat_tool_count : Int
  deriving DecidableEq, Repr

/-- A partial state update as returned by a LangGraph node: the `messages`
entry goes through the `add_messages` reducer, every other key overwrites its
last-value channel when present. -/
structure Update where
  messages : List Msg := []
  route : Option Route := none
  rag_meta_ids : Option (List String) := none
  handoff_required : Option Bool := none
  handoff_reason : Option String := none
  booking_tool_steps : Option Int := none
  last_tool_signature : Option String := none
  repeat_tool_count : Option Int := none
  deriving DecidableEq, Repr

/-- One step of the `add_messages` reducer: a message whose id is already
present replaces the stored one; otherwise it is appended (a message without
an id receives a fresh uuid in LangGraph, hence is always appended). -/
def upsert (acc : List Msg) (m : Msg) : List Msg :=
  match m.id with
  | none => acc ++ [m]
  | some i =>
    if acc.any (fun e => e.id == some i) then
      acc.map (fun e => if e.id == some i then m else e)
    else
      acc ++ [m]

/-- LangGraph's `add_messages` reducer on the `messages` channel. -/
def addMessages (existing new : List Msg) : List Msg :=
  new.foldl upsert existing

/-- Apply a node's partial update to the state, channel by channel. -/
def applyUpdate (s : State) (u : Update) : State :=
  { messages := addMessages s.messages u.messages,
    route := u.route.getD s.route,
    rag_meta_ids := u.rag_meta_ids.getD s.rag_meta_ids,
    handoff_required := u.handoff_required.getD s.handoff_required,
    handoff_reason := u.handoff_reason.getD s.handoff_reason,
    booking_tool_steps := u.booking_tool_steps.getD s.booking_tool_steps,
    last_tool_signature := u.last_tool_signature.getD s.last_tool_signature,
    repeat_tool_count := u.repeat_tool_count.getD s.repeat_tool_count }

/-- The update corresponding to a Python node body `return state`: every
channel resubmitted with its current value, `messages` in full. -/
def fullStateUpdate (s : State) : Update :=
  { messages := s.messages,
    route := some s.route,
    rag_meta_ids := some s.rag_meta_ids,
    handoff_required := some s.handoff_required,
    handoff_reason := some s.handoff_reason,
    booking_tool_steps := some s.booking_tool_steps,
    last_tool_signature := some s.last_tool_signature,
    repeat_tool_count := some s.repeat_tool_count }

/-- Checkpointed histories: every stored message has been assigned an id and
the ids are pairwise distinct (LangGraph assigns fresh uuids). -/
def storedIds (l : List Msg) : Prop :=
  (∀ m ∈ l, m.id ≠ none) ∧ (l.map Msg.id).Nodup

instance (l : List Msg) : Decidable (storedIds l) := by
  unfold storedIds
  infer_instance

/-! ## Decision models (`sre/rag_agent/models.py`) -/

/-- Embeds `RouterDecision`; `confidence` is a Python float that the router
only compares against 0.55, embedded as a rational. -/
structure RouterDecision where
  route : Route
  reply : String
  confidence : ℚ
  deriving DecidableEq, Repr

/-- Embeds `MetaChunk`. -/
structure MetaChunk where
  id : String
  title : String
  category : String
  source_file : String
  paragraph_index : Int
  deriving DecidableEq, Repr

/-- Embeds `StructuredResponseRAG`. -/
structure StructuredResponseRAG where
  answer : String
  meta : List MetaChunk
  deriving DecidableEq, Repr

/-- Embeds `HandoffDecision`. -/
structure HandoffDecision where
  handoff_required : Bool
  reason : String
  reply : String
  deriving DecidableEq, Repr

/-! ## Generator / collaborator oracles

The LLM calls and the tool executor are opaque collaborators; each is an
arbitrary function of the information the code hands it, so every theorem
quantifies over all their behaviors. -/

/-- The structured router LLM call (`router_llm.invoke` on prompt+history). -/
abbrev RouterGen := State → RouterDecision

/-- The tool-bound booking LLM call; returns the generated message. -/
abbrev BookingGen := State → Msg

/-- The structured handoff LLM call. -/
abbrev HandoffGen := State → HandoffDecision

/-- The structured RAG LLM call: context block plus history. -/
abbrev RagGen := String → State → StructuredResponseRAG

/-- The retriever: query text to the retrieved page contents. -/
abbrev Retriever := String → List String

/-- The `ToolNode` executor: state to the tool-result messages it appends. -/
abbrev ToolExec := State → List Msg

/-! ## Node functions (`sre/langgraph_app.py`) -/

/-- A fresh `AIMessage(content=...)` (no id until stored). -/
def mkAI (content : String) : Msg :=
  { id := none, role := Role.assistant, content := content, tool_calls := [] }

/-- Python's `not s.strip()`: the string is empty or whitespace-only. -/
def strBlank (s : String) : Bool :=
  s.data.all Char.isWhitespace

/-- The fixed clarifying question the router substitutes when the confidence
guard fires on an empty reply. -/
def CLARIFY_QUESTION : String :=
  "Could you clarify—are you trying to book a service or asking an informational question?"

/-- Embeds `router_node`.  Python reads `state["messages"][-1]`, which raises
on an empty history: that case is `none`.  `return state` on a non-user last
message becomes `fullStateUpdate`. -/
def router_node (gen : RouterGen) (s : State) : Option Update :=
  match s.messages.getLast? with
  | none => none
  | some last =>
    if last.role = Role.user then
      let d0 := gen s
      let d : RouterDecision :=
        if d0.confidence < (0.55 : ℚ) ∧ d0.route ≠ Route.general then
          { d0 with
            route := Route.general,
            reply := if strBlank d0.reply then CLARIFY_QUESTION else d0.reply }
        else d0
      if d.route = Route.general then
        some { route := some d.route, messages := [mkAI d.reply] }
      else
        some { route := some d.route }
    else
      some (fullStateUpdate s)

/-- Embeds `route_after_router`: conditional dispatch on `state["route"]`. -/
def route_after_router (s : State) : String :=
  if s.route = Route.kb then "rag_node"
  else if s.route = Route.booking then "booking_llm_node"
  else if s.route = Route.handoff then "handoff_node"
  else "END"

/-- Embeds `rag_node`: retrieve on the latest message content, join the
retrieved texts into a context block, one structured LLM call, collect the
non-empty meta ids, append one assistant message with the answer. -/
def rag_node (retr : Retriever) (gen : RagGen) (s : State) : Option Update :=
  match s.messages.getLast? with
  | none => none
  | some last =>
    let kb := retr last.content
    let resp := gen (String.intercalate "\n\n" kb) s
    let ids := (resp.meta.filter fun m => m.id ≠ "").map MetaChunk.id
    some { messages := [mkAI resp.answer], rag_meta_ids := some ids }

/-- Embeds `handoff_node`: guarded like the router; sets the handoff fields
from the decision (reason cleared unless required) and appends the reply. -/
def handoff_node (gen : HandoffGen) (s : State) : Option Update :=
  match s.messages.getLast? with
  | none => none
  | some last =>
    if last.role = Role.user then
      let d := gen s
      some { handoff_required := some d.handoff_required,
             handoff_reason := some (if d.handoff_required then d.reason else ""),
             messages := [mkAI d.reply] }
    else
      some (fullStateUpdate s)

/-! ## Booking loop (`booking_llm_node`, `booking_should_continue`,
`tools_wrapper` and the graph wiring `booking_llm_node ⇄ tools`) -/

/-- Insertion of one key/value pair into a key-sorted argument list. -/
def insertByKey (kv : String × String) : List (String × String) → List (String × String)
  | [] => [kv]
  | h :: t => if kv.1 ≤ h.1 then kv :: h :: t else h :: insertByKey kv t

/-- Sort the argument map by key, the effect of `sort_keys=True`. -/
def sortArgs (l : List (String × String)) : List (String × String) :=
  l.foldr insertByKey []

/-- Canonical serialization of the argument map with sorted keys, mirroring
`json.dumps(tc.get("args", \x7b\x7d), sort_keys=True)` for string-valued
arguments. -/
def jsonOfArgs (args : List (String × String)) : String :=
  "\x7b" ++
    String.intercalate ", "
      ((sortArgs args).map fun kv => "\"" ++ kv.1 ++ "\": \"" ++ kv.2 ++ "\"") ++
    "\x7d"

/-- The repeat-detection signature computed inside `booking_llm_node`: empty
unless the generated message is an `AIMessage` with a nonempty `tool_calls`
list, in which case it is built from the FIRST tool call only. -/
def computeSig (ai : Msg) : String :=
  match ai.role, ai.tool_calls with
  | Role.assistant, tc :: _ => tc.name ++ "|" ++ jsonOfArgs tc.args
  | _, _ => ""

/-- Embeds `booking_llm_node`: append the generated message, store the new
signature, and increment `repeat_tool_count` exactly when the new signature
is nonempty and equals the stored one (else reset it to 0). -/
def booking_llm_node (gen : BookingGen) (s : State) : Update :=
  let ai := gen s
  let sig := computeSig ai
  let repeats : Int :=
    if sig ≠ "" ∧ sig = s.last_tool_signature then s.repeat_tool_count + 1 else 0
  { messages := [ai],
    last_tool_signature := some sig,
    repeat_tool_count := some repeats }

/-- Embeds `booking_should_continue`.  Python reads `state["messages"][-1]`;
in the compiled graph this predicate only runs right after
`booking_llm_node`, whose update always leaves a nonempty history, so the
`none` arm (mapped to "end") is unreachable there. -/
def booking_should_continue (MAX_TOOL_STEPS : Int) (s : State) : Bool :=
  if s.booking_tool_steps ≥ MAX_TOOL_STEPS then false
  else
    match s.messages.getLast? with
    | some last =>
      if last.role = Role.assistant ∧ last.tool_calls ≠ [] then
        if s.repeat_tool_count ≥ 2 then false else true
      else false
    | none => false

/-- Embeds `tools_wrapper`: run the tool node on the state and increment
`booking_tool_steps` by exactly one. -/
def tools_wrapper (texec : ToolExec) (s : State) : Update :=
  { messages := texec s,
    booking_tool_steps := some (s.booking_tool_steps + 1) }

/-- The state after one `booking_llm_node` execution (update applied). -/
def bookingGenStep (gen : BookingGen) (s : State) : State :=
  applyUpdate s (booking_llm_node gen s)

/-- The state after one `tools` node execution (update applied): one
tool-executor round. -/
def bookingToolStep (texec : ToolExec) (s : State) : State :=
  applyUpdate s (tools_wrapper texec s)

/-- The booking loop as wired in `build_app`: enter at `booking_llm_node`;
while `booking_should_continue` answers "continue", run `tools_wrapper` and
come back.  Returns the final state together with the number of
tool-executor rounds performed.  Lean accepts this definition only because
the loop provably terminates: the recursion is justified by the strictly
shrinking gap between `booking_tool_steps` and `MAX_TOOL_STEPS`. -/
def bookingLoop (MAX_TOOL_STEPS : Int) (gen : BookingGen) (texec : ToolExec)
    (s : State) : State × Nat :=
  if h : booking_should_continue MAX_TOOL_STEPS (bookingGenStep gen s) = true then
    let r :=
      bookingLoop MAX_TOOL_STEPS gen texec (bookingToolStep texec (bookingGenStep gen s))
    (r.1, r.2 + 1)
  else
    (bookingGenStep gen s, 0)
termination_by (MAX_TOOL_STEPS - s.booking_tool_steps).toNat
decreasing_by
  have hlt : s.booking_tool_steps < MAX_TOOL_STEPS := by
    by_contra hc
    push_neg at hc
    have hge : (bookingGenStep gen s).booking_tool_steps ≥ MAX_TOOL_STEPS := hc
    have hfalse : booking_should_continue MAX_TOOL_STEPS (bookingGenStep gen s) = false := by
      simp [booking_should_continue, hge]
    rw [hfalse] at h
    exact Bool.noConfusion h
  show (MAX_TOOL_STEPS - (s.booking_tool_steps + 1)).toNat <
    (MAX_TOOL_STEPS - s.booking_tool_steps).toNat
  omega

/-! ## `sre/graph_service.py`: per-turn input and the retry loop -/

/-- Default of the env-configurable `COB_MAX_TOOL_STEPS`. -/
def MAX_TOOL_STEPS_DEFAULT : Int := 4

/-- Default of the env-configurable `COB_MAX_RETRIES`. -/
def MAX_RETRIES_DEFAULT : Nat := 1

/-- The `recursion_limit` entry of the invoke configuration. -/
def RECURSION_LIMIT : Nat := 20

/-- The input `GraphService.invoke` passes to the compiled graph for one
turn: a single fresh user message and nothing else — no other channel is
named in the input dict. -/
def turnInput (text : String) : Update :=
  { messages := [{ id := none, role := Role.user, content := text, tool_calls := [] }] }

/-- The state a new user turn starts from on an existing thread: the
checkpointer restores the thread's previous state and the invoke input is
applied to it as an ordinary partial update. -/
def startTurn (s : State) (text : String) : State :=
  applyUpdate s (turnInput text)

/-- A whole-turn orchestrator run as the retry loop observes it: each
attempt index yields either a final state or the textual representation of
the exception that attempt raised. -/
abbrev RunOracle (σ : Type) := Nat → Except String σ

/-- Embeds the `for attempt in range(self._max_retries + 1)` retry loop of
`GraphService.invoke`, from a given attempt index: on success the final
state is returned together with the list of back-off sleeps performed (in
seconds); on failure the exception is classified, and a non-retryable
classification or an exhausted budget re-raises the exception unchanged,
while otherwise the loop sleeps `0.5 * (attempt + 1)` seconds and retries
the same input. -/
def retryFrom {σ : Type} (max_retries : Nat) (run : RunOracle σ) (attempt : Nat) :
    Except String (σ × List ℚ) :=
  match run attempt with
  | Except.ok st => Except.ok (st, [])
  | Except.error e =>
    if h : (classify_exception e).retryable = false ∨ attempt ≥ max_retries then
      Except.error e
    else
      match retryFrom max_retries run (attempt + 1) with
      | Except.ok (st, sleeps) =>
        Except.ok (st, ((1 : ℚ) / 2) * (attempt + 1) :: sleeps)
      | Except.error e2 => Except.error e2
termination_by max_retries + 1 - attempt
decreasing_by
  push_neg at h
  obtain ⟨-, h2⟩ := h
  omega

/-- The whole retry wrapper of `GraphService.invoke` (attempts start at 0). -/
def invokeWithRetry {σ : Type} (max_retries : Nat) (run : RunOracle σ) :
    Except String (σ × List ℚ) :=
  retryFrom max_retries run 0

/-! ## Booking store (`sre/booking_agent/tools.py`) -/

/-- One row of the `appointments` table. -/
structure Slot where
  service : String
  date : String
  time : String
  status : String
  customer_name : String
  phone : String
  deriving DecidableEq, Repr

/-- The `appointments` table. -/
abbrev Store := List Slot

/-- The SQL row filter `service=? AND date=? AND time=?`. -/
def slotMatches (service date time : String) (r : Slot) : Bool :=
  r.service == service && r.date == date && r.time == time

/-- Embeds `core_check_slot_availability` (`SELECT status ... ; fetchone()`,
modelled as the first matching row). -/
def core_check_slot_availability (db : Store) (service date time : String) : String :=
  match db.find? (slotMatches service date time) with
  | none => "not_found"
  | some r => if r.status = "free" then "available" else "booked"

/-- Embeds `core_book_slot`: the conditional UPDATE books every matching
free row in one atomic statement and `cur.rowcount` counts them; when
`rowcount ≠ 1` the result is decided by re-checking availability on the
updated table (`created_at` is not modelled).  Returns the updated table
together with the result string. -/
def core_book_slot (db : Store) (service date time customer_name phone : String) :
    Store × String :=
  let db2 := db.map fun r =>
    if slotMatches service date time r && r.status == "free" then
      { r with status := "booked", customer_name := customer_name, phone := phone }
    else r
  let updated := (db.filter fun r => slotMatches service date time r && r.status == "free").length
  if updated = 1 then (db2, "success")
  else if core_check_slot_availability db2 service date time = "booked" then (db2, "booked")
  else (db2, "not_found")

/-- Schema assumption behind the spec's notion of "the slot
(service, date, time)": at most one row per slot key. -/
def uniqueKeys (db : Store) : Prop :=
  db.Pairwise fun a b => (a.service, a.date, a.time) ≠ (b.service, b.date, b.time)

instance (db : Store) : Decidable (uniqueKeys db) := by
  unfold uniqueKeys
  exact List.instDecidablePairwise db

/-- Nonnegativity of the two per-turn counters, the part of the data-model
invariant the spec states as "always ≥ 0". -/
def countersNonneg (s : State) : Prop :=
  0 ≤ s.booking_tool_steps ∧ 0 ≤ s.repeat_tool_count

instance (s : State) : Decidable (countersNonneg s) := by
  unfold countersNonneg
  infer_instance

/-- Modelled from the spec: the per-turn step ceiling is enforced through the
`recursion_limit` entry (20) of the invoke configuration; the LangGraph
runtime — not part of this repository — raises a `GraphRecursionError` whose
textual representation reads like this when a turn exceeds that ceiling. -/
def RECURSION_LIMIT_MSG : String :=
  "Recursion limit of 20 reached without hitting a stop condition. You can increase the limit by setting the recursion_limit config key."

/-! ## Concrete fixtures used by witness and counterexample theorems -/

/-- The empty update. -/
def emptyUpdate : Update := {}

/-- A stored user message. -/
def userMsg1 : Msg :=
  { id := some 1, role := Role.user, content := "I want to book a haircut", tool_calls := [] }

/-- A stored assistant message with no tool calls. -/
def aiStored : Msg :=
  { id := some 2, role := Role.assistant, content := "Which day works for you?", tool_calls := [] }

/-- A fresh assistant message with no tool calls. -/
def aiPlain : Msg := mkAI "All done."

/-- A concrete tool call. -/
def tcCheck : ToolCall :=
  { name := "check_slot_availability",
    args := [("time", "10:00"), ("service", "haircut"), ("date", "2026-10-14")] }

/-- A fresh assistant message proposing `tcCheck`. -/
def aiToolMsg : Msg :=
  { id := none, role := Role.assistant, content := "", tool_calls := [tcCheck] }

/-- A baseline conversation state whose latest message is user-authored. -/
def baseState : State :=
  { messages := [userMsg1], route := Route.booking, rag_meta_ids := [],
    handoff_required := false, handoff_reason := "", booking_tool_steps := 0,
    last_tool_signature := "", repeat_tool_count := 0 }

/-- A booking generator that never proposes a tool call. -/
def genNoTools : BookingGen := fun _ => aiPlain

/-- A tool executor producing one fresh tool-result message. -/
def execOne : ToolExec :=
  fun _ => [{ id := none, role := Role.tool, content := "available", tool_calls := [] }]

/-- A state carrying used per-turn fields from a finished previous turn. -/
def carryState : State :=
  { messages := [userMsg1, aiStored], route := Route.kb, rag_meta_ids := ["chunk-7"],
    handoff_required := false, handoff_reason := "", booking_tool_steps := 3,
    last_tool_signature := "", repeat_tool_count := 1 }

/-- A state in which a previous turn required handoff. -/
def handoffTrueState : State :=
  { messages := [userMsg1, aiStored], route := Route.handoff, rag_meta_ids := [],
    handoff_required := true, handoff_reason := "user asked for a human",
    booking_tool_steps := 0, last_tool_signature := "", repeat_tool_count := 0 }

/-- A state whose latest message is assistant-authored (generated content). -/
def assistantLastState : State :=
  { messages := [userMsg1, aiStored], route := Route.general, rag_meta_ids := [],
    handoff_required := false, handoff_reason := "", booking_tool_steps := 0,
    last_tool_signature := "", repeat_tool_count := 0 }

/-- A two-row appointment store with one free and one booked slot. -/
def storeW : Store :=
  [{ service := "haircut", date := "2026-10-14", time := "10:00", status := "free",
     customer_name := "", phone := "" },
   { service := "haircut", date := "2026-10-14", time := "11:00", status := "booked",
     customer_name := "Sam", phone := "555-0100" }]

end CobAgent

namespace CobAgent

/-! ## Claim C5: the error classifier -/

/-- C5: `classify_exception` is a pure total function of the exception's
textual representation matching the four categories in priority order, first
match winning, by case-insensitive substring search: quota signals give
`MODEL_QUOTA_EXCEEDED`/429/retryable even when later-category signals also
occur; otherwise transient signals give `TRANSIENT_UPSTREAM_ERROR`/503/
retryable; otherwise bad-request signals (for example the text
"Invalid argument: 400") give `UPSTREAM_BAD_REQUEST`/400/non-retryable;
any other text gives `INTERNAL_ERROR`/500/non-retryable. -/
theorem classify_exception_cases (msg : String) :
    (quotaSignal (lowerStr msg) = true →
      classify_exception msg =
        { kind := "MODEL_QUOTA_EXCEEDED",
          message := "Model quota/rate limit exceeded. Please retry later.",
          status_code := 429, retryable := true, raw := some msg }) ∧
    (quotaSignal (lowerStr msg) = false → transientSignal (lowerStr msg) = true →
      classify_exception msg =
        { kind := "TRANSIENT_UPSTREAM_ERROR",
          message := "Upstream service temporarily unavailable. Please retry.",
          status_code := 503, retryable := true, raw := some msg }) ∧
    (quotaSignal (lowerStr msg) = false → transientSignal (lowerStr msg) = false →
      badRequestSignal (lowerStr msg) = true →
      classify_exception msg =
        { kind := "UPSTREAM_BAD_REQUEST",
          message := "Upstream rejected the request (invalid input/config).",
          status_code := 400, retryable := false, raw := some msg }) ∧
    (quotaSignal (lowerStr msg) = false → transientSignal (lowerStr msg) = false →
      badRequestSignal (lowerStr msg) = false →
      classify_exception msg =
        { kind := "INTERNAL_ERROR",
          message := "Unexpected server error.",
          status_code := 500, retryable := false, raw := some msg }) := by
  refine ⟨?_, ?_, ?_, ?_⟩
  · intro h1
    simp [classify_exception, h1]
  · intro h1 h2
    simp [classify_exception, h1, h2]
  · intro h1 h2 h3
    simp [classify_exception, h1, h2, h3]
  · intro h1 h2 h3
    simp [classify_exception, h1, h2, h3]

/-- Witness for C5: the two concrete inputs named by the spec. -/
theorem classify_exception_cases_witness :
    classify_exception "Error 429: rate limit exceeded" =
      { kind := "MODEL_QUOTA_EXCEEDED",
        message := "Model quota/rate limit exceeded. Please retry later.",
        status_code := 429, retryable := true,
        raw := some "Error 429: rate limit exceeded" } ∧
    classify_exception "Invalid argument: 400" =
      { kind := "UPSTREAM_BAD_REQUEST",
        message := "Upstream rejected the request (invalid input/config).",
        status_code := 400, retryable := false,
        raw := some "Invalid argument: 400" } :=
  ⟨(classify_exception_cases "Error 429: rate limit exceeded").1 (by decide),
   (classify_exception_cases "Invalid argument: 400").2.2.1
     (by decide) (by decide) (by decide)⟩

/-! ## Claim C10: the repeat-detection signature -/

/-- C10: the repeat-detection signature is computed only from the FIRST
proposed tool call — additional tool calls in the same generated result are
ignored; when the result proposes no tool call the stored signature becomes
the empty string and `repeat_tool_count` resets to 0; and the counter never
increments on a result with an empty signature (the increment condition
requires a nonempty signature), even when the previously stored signature
was also empty. -/
theorem booking_signature_first_call_only (gen : BookingGen) (s : State)
    (ai : Msg) (tc : ToolCall) (rest rest2 : List ToolCall) :
    (computeSig { ai with tool_calls := tc :: rest } =
      computeSig { ai with tool_calls := tc :: rest2 }) ∧
    (((gen s).role ≠ Role.assistant ∨ (gen s).tool_calls = []) →
      (bookingGenStep gen s).last_tool_signature = "" ∧
      (bookingGenStep gen s).repeat_tool_count = 0) ∧
    (computeSig (gen s) = "" →
      (bookingGenStep gen s).repeat_tool_count = 0) := by
  refine ⟨?_, ?_, ?_⟩
  · obtain ⟨i, r, c, t⟩ := ai
    cases r <;> simp [computeSig]
  · intro hcase
    have hsig : computeSig (gen s) = "" := by
      rcases hgen : gen s with ⟨i, r, c, t⟩
      rw [hgen] at hcase
      rcases hcase with hrole | htc
      · cases r <;> cases t <;> simp_all [computeSig]
      · cases r <;> simp_all [computeSig]
    refine ⟨?_, ?_⟩
    · simp [bookingGenStep, applyUpdate, booking_llm_node, hsig]
    · simp [bookingGenStep, applyUpdate, booking_llm_node, hsig]
  · intro hsig
    simp [bookingGenStep, applyUpdate, booking_llm_node, hsig]

/-- Witness for C10 at a concrete generator that proposes no tool call. -/
theorem booking_signature_first_call_only_witness :
    (bookingGenStep genNoTools baseState).last_tool_signature = "" ∧
    (bookingGenStep genNoTools baseState).repeat_tool_count = 0 :=
  (booking_signature_first_call_only genNoTools baseState aiPlain tcCheck [] []).2.1
    (Or.inr rfl)

/-! ## Claim C4: the router confidence guard -/

/-- C4: for every router decision whose confidence is < 0.55 and whose
proposed route is not `general`, the router forces `route = general` and the
appended assistant reply is non-blank: the decision's own reply when it has
non-whitespace content, else the fixed clarifying question. -/
theorem router_confidence_guard (gen : RouterGen) (s : State) (last : Msg)
    (hlast : s.messages.getLast? = some last) (huser : last.role = Role.user)
    (hconf : (gen s).confidence < (0.55 : ℚ))
    (hroute : (gen s).route ≠ Route.general) :
    router_node gen s =
      some { route := some Route.general,
             messages := [mkAI (if strBlank (gen s).reply then CLARIFY_QUESTION
                                else (gen s).reply)] } ∧
    strBlank (if strBlank (gen s).reply then CLARIFY_QUESTION else (gen s).reply) =
      false := by
  constructor
  · simp [router_node, hlast, huser, hconf, hroute]
  · by_cases hb : strBlank (gen s).reply = true
    · simp only [hb, if_true]
      decide
    · simp only [Bool.not_eq_true] at hb
      simp [hb]

/-- Witness for C4: a low-confidence booking proposal with a blank reply. -/
theorem router_confidence_guard_witness :
    router_node (fun _ => { route := Route.booking, reply := " ", confidence := (0.3 : ℚ) })
        baseState =
      some { route := some Route.general,
             messages := [mkAI (if strBlank " " then CLARIFY_QUESTION else " ")] } :=
  (router_confidence_guard
    (fun _ => { route := Route.booking, reply := " ", confidence := (0.3 : ℚ) })
    baseState userMsg1 rfl rfl (by norm_num) (by decide)).1

/-! ## Shared lemmas about `add_messages` and the node updates -/

/-- A map that fixes every element of a list is the identity on it. -/
theorem map_eq_self_of_fixes {α : Type} (l : List α) (f : α → α)
    (h : ∀ x ∈ l, f x = x) : l.map f = l := by
  induction l with
  | nil => rfl
  | cons a t ih =>
    simp only [List.map_cons]
    rw [h a (by simp), ih (fun x hx => h x (by simp [hx]))]

/-- Upserting a message already stored in a well-formed history is a no-op. -/
theorem upsert_mem_eq (l : List Msg) (m : Msg) (hids : storedIds l) (hm : m ∈ l) :
    upsert l m = l := by
  obtain ⟨hsome, hnodup⟩ := hids
  obtain ⟨i, hi⟩ : ∃ i, m.id = some i := by
    cases hmi : m.id with
    | none => exact absurd hmi (hsome m hm)
    | some j => exact ⟨j, rfl⟩
  unfold upsert
  rw [hi]
  dsimp only
  have hany : l.any (fun e => e.id == some i) = true :=
    List.any_eq_true.mpr ⟨m, hm, by simp [hi]⟩
  rw [if_pos hany]
  apply map_eq_self_of_fixes
  intro e he
  by_cases hei : e.id = some i
  · have hem : e = m :=
      List.inj_on_of_nodup_map hnodup he hm (by rw [hei, hi])
    simp [hei, hem]
  · simp [hei]

/-- Resubmitting a well-formed history through `add_messages` leaves it
unchanged: each message is replaced by itself. -/
theorem addMessages_self (l : List Msg) (hids : storedIds l) :
    addMessages l l = l := by
  have haux : ∀ ms : List Msg, (∀ m ∈ ms, m ∈ l) → ms.foldl upsert l = l := by
    intro ms
    induction ms with
    | nil => intro _; rfl
    | cons a t ih =>
      intro hsub
      simp only [List.foldl_cons]
      rw [upsert_mem_eq l a hids (hsub a (by simp))]
      exact ih fun m hm => hsub m (by simp [hm])
  exact haux l fun m hm => hm

/-- Applying the `return state` update gives back the state unchanged on any
well-formed history. -/
theorem applyUpdate_fullState (s : State) (hids : storedIds s.messages) :
    applyUpdate s (fullStateUpdate s) = s := by
  simp [applyUpdate, fullStateUpdate, addMessages_self s.messages hids]

/-- Every update the router can emit leaves the per-turn counters, the
citations and the handoff flag of the state unchanged. -/
theorem router_node_preserves (g : RouterGen) (s : State) (u : Update)
    (hu : router_node g s = some u) :
    (applyUpdate s u).booking_tool_steps = s.booking_tool_steps ∧
    (applyUpdate s u).repeat_tool_count = s.repeat_tool_count ∧
    (applyUpdate s u).rag_meta_ids = s.rag_meta_ids ∧
    (applyUpdate s u).handoff_required = s.handoff_required := by
  simp only [router_node] at hu
  split at hu
  · exact absurd hu (by simp)
  · split at hu
    · split at hu
      · split at hu
        · injection hu with h
          subst h
          simp [applyUpdate]
        · injection hu with h
          subst h
          simp [applyUpdate]
      · split at hu
        · injection hu with h
          subst h
          simp [applyUpdate]
        · injection hu with h
          subst h
          simp [applyUpdate]
    · injection hu with h
      subst h
      simp [applyUpdate, fullStateUpdate]

/-- Every update the RAG stage can emit leaves the counters and the handoff
flag unchanged. -/
theorem rag_node_preserves (retr : Retriever) (g : RagGen) (s : State) (u : Update)
    (hu : rag_node retr g s = some u) :
    (applyUpdate s u).booking_tool_steps = s.booking_tool_steps ∧
    (applyUpdate s u).repeat_tool_count = s.repeat_tool_count ∧
    (applyUpdate s u).handoff_required = s.handoff_required := by
  simp only [rag_node] at hu
  split at hu
  · exact absurd hu (by simp)
  · injection hu with h
    subst h
    simp [applyUpdate]

/-- Every update the handoff stage can emit leaves the counters and the
citations unchanged. -/
theorem handoff_node_preserves (g : HandoffGen) (s : State) (u : Update)
    (hu : handoff_node g s = some u) :
    (applyUpdate s u).booking_tool_steps = s.booking_tool_steps ∧
    (applyUpdate s u).repeat_tool_count = s.repeat_tool_count ∧
    (applyUpdate s u).rag_meta_ids = s.rag_meta_ids := by
  simp only [handoff_node] at hu
  split at hu
  · exact absurd hu (by simp)
  · split at hu
    · injection hu with h
      subst h
      simp [applyUpdate]
    · injection hu with h
      subst h
      simp [applyUpdate, fullStateUpdate]

/-- On a state whose latest message is user-authored, the handoff stage sets
the flag to exactly the fresh decision's value. -/
theorem handoff_node_sets_decision (g : HandoffGen) (s : State) (last : Msg)
    (hlast : s.messages.getLast? = some last) (huser : last.role = Role.user)
    (u : Update) (hu : handoff_node g s = some u) :
    (applyUpdate s u).handoff_required = (g s).handoff_required := by
  simp only [handoff_node, hlast, huser, if_true] at hu
  injection hu with h
  subst h
  simp [applyUpdate]

/-! ## Claim C8: router and handoff no-ops on generated content -/

/-- C8: on a state whose most recent message is not user-authored, the
router stage and the handoff stage each return the full current state
(`return state`), whose application leaves the state unchanged — no message
appended, no field modified — and their output does not depend on the
generator oracle, which the guarded path never consults. -/
theorem router_handoff_noop_on_generated (rgen : RouterGen) (hgen : HandoffGen)
    (s : State) (last : Msg) (hlast : s.messages.getLast? = some last)
    (hnotuser : last.role ≠ Role.user) (hids : storedIds s.messages) :
    router_node rgen s = some (fullStateUpdate s) ∧
    handoff_node hgen s = some (fullStateUpdate s) ∧
    applyUpdate s (fullStateUpdate s) = s ∧
    (∀ rgen2 : RouterGen, router_node rgen2 s = router_node rgen s) ∧
    (∀ hgen2 : HandoffGen, handoff_node hgen2 s = handoff_node hgen s) := by
  have hr : ∀ g : RouterGen, router_node g s = some (fullStateUpdate s) := by
    intro g
    simp [router_node, hlast, hnotuser]
  have hh : ∀ g : HandoffGen, handoff_node g s = some (fullStateUpdate s) := by
    intro g
    simp [handoff_node, hlast, hnotuser]
  refine ⟨hr rgen, hh hgen, applyUpdate_fullState s hids, ?_, ?_⟩
  · intro g2
    rw [hr g2, hr rgen]
  · intro g2
    rw [hh g2, hh hgen]

/-- Witness for C8 on a concrete state ending in an assistant message. -/
theorem router_handoff_noop_on_generated_witness :
    router_node (fun _ => { route := Route.general, reply := "", confidence := (0.7 : ℚ) })
        assistantLastState = some (fullStateUpdate assistantLastState) ∧
    applyUpdate assistantLastState (fullStateUpdate assistantLastState) =
      assistantLastState := by
  have h := router_handoff_noop_on_generated
    (fun _ => { route := Route.general, reply := "", confidence := (0.7 : ℚ) })
    (fun _ => { handoff_required := false, reason := "", reply := "" })
    assistantLastState aiStored rfl (by decide) (by decide)
  exact ⟨h.1, h.2.2.1⟩

/-! ## Claim C2: `handoff_required` is NOT monotonic (corrected) -/

/-- Counterexample to C2 as stated: a thread whose previous turn set
`handoff_required = true`, a new user turn arrives (`startTurn`), the router
dispatches to the handoff stage (route is `handoff`), and the fresh handoff
decision carries `handoff_required = false` — the stage execution sets the
flag back to false. -/
theorem handoff_required_monotonic_cex :
    (startTurn handoffTrueState "are you a real person?").handoff_required = true ∧
    (applyUpdate (startTurn handoffTrueState "are you a real person?")
        ((handoff_node
            (fun _ => { handoff_required := false, reason := "",
                        reply := "I can keep helping you here." })
            (startTurn handoffTrueState "are you a real person?")).getD
          emptyUpdate)).handoff_required = false := by
  decide

/-- C2 (amended): `handoff_required` is preserved by the router, RAG,
booking-generator and tool-executor stages, but it is not monotonic: on a
user-authored latest message the handoff stage overwrites it with the fresh
decision's value, so a subsequent handoff stage execution on the same thread
can set it back to false. -/
theorem handoff_required_latest_decision (rgen : RouterGen) (retr : Retriever)
    (ragg : RagGen) (bgen : BookingGen) (texec : ToolExec) (hgen : HandoffGen)
    (s : State) :
    (∀ u, router_node rgen s = some u →
      (applyUpdate s u).handoff_required = s.handoff_required) ∧
    (∀ u, rag_node retr ragg s = some u →
      (applyUpdate s u).handoff_required = s.handoff_required) ∧
    (bookingGenStep bgen s).handoff_required = s.handoff_required ∧
    (bookingToolStep texec s).handoff_required = s.handoff_required ∧
    (∀ last, s.messages.getLast? = some last → last.role = Role.user →
      ∀ u, handoff_node hgen s = some u →
        (applyUpdate s u).handoff_required = (hgen s).handoff_required) := by
  refine ⟨?_, ?_, rfl, rfl, ?_⟩
  · intro u hu
    exact (router_node_preserves rgen s u hu).2.2.2
  · intro u hu
    exact (rag_node_preserves retr ragg s u hu).2.2
  · intro last hlast huser u hu
    exact handoff_node_sets_decision hgen s last hlast huser u hu

/-- Witness for C2 (amended) on a concrete clearing handoff decision. -/
theorem handoff_required_latest_decision_witness :
    (applyUpdate (startTurn handoffTrueState "still there?")
        { messages := [mkAI "yes"], handoff_required := some false,
          handoff_reason := some "" }).handoff_required = false := by
  have h :=
    (handoff_required_latest_decision
        (fun _ => { route := Route.handoff, reply := "", confidence := (0.9 : ℚ) })
        (fun _ => []) (fun _ _ => { answer := "", meta := [] })
        (fun _ => aiPlain) (fun _ => [])
        (fun _ => { handoff_required := false, reason := "", reply := "yes" })
        (startTurn handoffTrueState "still there?")).2.2.2.2
      { id := none, role := Role.user, content := "still there?", tool_calls := [] }
      (by decide) rfl
      { messages := [mkAI "yes"], handoff_required := some false,
        handoff_reason := some "" }
      (by decide)
  exact h

/-! ## Claim C3: per-turn fields are NOT reset at turn start (corrected) -/

/-- Counterexample to C3 as stated: a thread whose previous turn left
`booking_tool_steps = 3`, `repeat_tool_count = 1` and
`rag_meta_ids = ["chunk-7"]`; the next user turn starts with those values
carried over, not reset to 0 / empty. -/
theorem turn_reset_cex :
    (startTurn carryState "next question").booking_tool_steps = 3 ∧
    ¬ (startTurn carryState "next question").booking_tool_steps = 0 ∧
    (startTurn carryState "next question").repeat_tool_count = 1 ∧
    ¬ (startTurn carryState "next question").repeat_tool_count = 0 ∧
    (startTurn carryState "next question").rag_meta_ids = ["chunk-7"] ∧
    ¬ (startTurn carryState "next question").rag_meta_ids = [] := by
  decide

/-- C3 (amended): the per-turn input of `GraphService.invoke` names only the
new user message, so at the start of a new user turn on an existing thread
nothing is reset: `booking_tool_steps`, `repeat_tool_count` and
`rag_meta_ids` carry over unchanged from the previous turn while the history
grows by exactly the new user message; both counters are nonetheless always
≥ 0 in reachable states, because starting a turn and every stage execution
preserve nonnegativity. -/
theorem turn_start_carries_per_turn_fields (s : State) (text : String) :
    (startTurn s text).booking_tool_steps = s.booking_tool_steps ∧
    (startTurn s text).repeat_tool_count = s.repeat_tool_count ∧
    (startTurn s text).rag_meta_ids = s.rag_meta_ids ∧
    (startTurn s text).messages =
      s.messages ++ [{ id := none, role := Role.user, content := text, tool_calls := [] }] ∧
    (countersNonneg s → countersNonneg (startTurn s text)) ∧
    (∀ bgen : BookingGen, countersNonneg s → countersNonneg (bookingGenStep bgen s)) ∧
    (∀ texec : ToolExec, countersNonneg s → countersNonneg (bookingToolStep texec s)) ∧
    (∀ rgen : RouterGen, ∀ u, router_node rgen s = some u →
      countersNonneg s → countersNonneg (applyUpdate s u)) ∧
    (∀ retr : Retriever, ∀ ragg : RagGen, ∀ u, rag_node retr ragg s = some u →
      countersNonneg s → countersNonneg (applyUpdate s u)) ∧
    (∀ hgen : HandoffGen, ∀ u, handoff_node hgen s = some u →
      countersNonneg s → countersNonneg (applyUpdate s u)) := by
  refine ⟨rfl, rfl, rfl, rfl, fun h => h, ?_, ?_, ?_, ?_, ?_⟩
  · intro bgen h
    refine ⟨h.1, ?_⟩
    have hrw : (bookingGenStep bgen s).repeat_tool_count =
        if computeSig (bgen s) ≠ "" ∧ computeSig (bgen s) = s.last_tool_signature then
          s.repeat_tool_count + 1
        else 0 := rfl
    have h2 := h.2
    rw [hrw]
    split
    · omega
    · omega
  · intro texec h
    refine ⟨?_, h.2⟩
    have h1 := h.1
    have hrw : (bookingToolStep texec s).booking_tool_steps =
        s.booking_tool_steps + 1 := rfl
    rw [hrw]
    omega
  · intro rgen u hu h
    have hp := router_node_preserves rgen s u hu
    exact ⟨by rw [hp.1]; exact h.1, by rw [hp.2.1]; exact h.2⟩
  · intro retr ragg u hu h
    have hp := rag_node_preserves retr ragg s u hu
    exact ⟨by rw [hp.1]; exact h.1, by rw [hp.2.1]; exact h.2⟩
  · intro hgen u hu h
    have hp := handoff_node_preserves hgen s u hu
    exact ⟨by rw [hp.1]; exact h.1, by rw [hp.2.1]; exact h.2⟩

/-- Witness for C3 (amended) at the concrete carried-over state. -/
theorem turn_start_carries_per_turn_fields_witness :
    (startTurn carryState "hello again").booking_tool_steps =
      carryState.booking_tool_steps ∧
    countersNonneg (startTurn carryState "hello again") :=
  ⟨(turn_start_carries_per_turn_fields carryState "hello again").1,
   (turn_start_carries_per_turn_fields carryState "hello again").2.2.2.2.1 (by decide)⟩

/-! ## Claim C1: booking loop termination -/

/-- Continuation requires the step counter to be strictly under the bound
(first guard of `booking_should_continue`). -/
theorem booking_should_continue_lt (MAX_TOOL_STEPS : Int) (s : State)
    (h : booking_should_continue MAX_TOOL_STEPS s = true) :
    s.booking_tool_steps < MAX_TOOL_STEPS := by
  by_contra hge
  push_neg at hge
  simp [booking_should_continue, hge] at h

/-- A repeat count of at least 2 refuses continuation regardless of the rest
of the state. -/
theorem booking_should_continue_repeat (MAX_TOOL_STEPS : Int) (s : State)
    (h2 : s.repeat_tool_count ≥ 2) :
    booking_should_continue MAX_TOOL_STEPS s = false := by
  unfold booking_should_continue
  split
  · rfl
  · split
    · split
      · simp [h2]
      · rfl
    · rfl

/-- A latest message that is not an assistant message with tool calls
refuses continuation. -/
theorem booking_should_continue_no_toolcall (MAX_TOOL_STEPS : Int) (s : State)
    (last : Msg) (hlast : s.messages.getLast? = some last)
    (hnc : last.role ≠ Role.assistant ∨ last.tool_calls = []) :
    booking_should_continue MAX_TOOL_STEPS s = false := by
  have hcond : ¬(last.role = Role.assistant ∧ last.tool_calls ≠ []) := by
    rcases hnc with h | h
    · exact fun hc => h hc.1
    · exact fun hc => hc.2 h
  unfold booking_should_continue
  split
  · rfl
  · rw [hlast]
    dsimp only
    rw [if_neg hcond]

/-- After `booking_llm_node` the latest message is the freshly generated
one (fresh LLM outputs carry no stored id, so `add_messages` appends). -/
theorem bookingGenStep_getLast (gen : BookingGen) (s : State)
    (hid : (gen s).id = none) :
    (bookingGenStep gen s).messages.getLast? = some (gen s) := by
  have hmsgs : (bookingGenStep gen s).messages = s.messages ++ [gen s] := by
    show addMessages s.messages [gen s] = s.messages ++ [gen s]
    simp [addMessages, upsert, hid]
  rw [hmsgs]
  exact List.getLast?_concat s.messages

/-- The number of tool-executor rounds is bounded by the gap between the
step counter and the bound. -/
theorem bookingLoop_rounds_le (MAX_TOOL_STEPS : Int) (gen : BookingGen)
    (texec : ToolExec) :
    ∀ fuel : Nat, ∀ s : State,
      (MAX_TOOL_STEPS - s.booking_tool_steps).toNat ≤ fuel →
      (bookingLoop MAX_TOOL_STEPS gen texec s).2 ≤
        (MAX_TOOL_STEPS - s.booking_tool_steps).toNat := by
  intro fuel
  induction fuel with
  | zero =>
    intro s hs
    have hge : (bookingGenStep gen s).booking_tool_steps ≥ MAX_TOOL_STEPS := by
      have hsteps : (bookingGenStep gen s).booking_tool_steps = s.booking_tool_steps := rfl
      omega
    have hf : booking_should_continue MAX_TOOL_STEPS (bookingGenStep gen s) = false := by
      simp [booking_should_continue, hge]
    rw [bookingLoop]
    simp [hf]
  | succ n ih =>
    intro s hs
    by_cases hc : booking_should_continue MAX_TOOL_STEPS (bookingGenStep gen s) = true
    · have hlt := booking_should_continue_lt _ _ hc
      have hsteps : (bookingGenStep gen s).booking_tool_steps = s.booking_tool_steps := rfl
      rw [hsteps] at hlt
      have hs2 : (bookingToolStep texec (bookingGenStep gen s)).booking_tool_steps =
          s.booking_tool_steps + 1 := rfl
      have ihr := ih (bookingToolStep texec (bookingGenStep gen s)) (by rw [hs2]; omega)
      rw [hs2] at ihr
      rw [bookingLoop]
      rw [dif_pos hc]
      show (bookingLoop MAX_TOOL_STEPS gen texec
          (bookingToolStep texec (bookingGenStep gen s))).2 + 1 ≤
        (MAX_TOOL_STEPS - s.booking_tool_steps).toNat
      omega
    · rw [bookingLoop]
      rw [dif_neg hc]
      simp

/-- C1: the booking tool loop terminates for every generator and tool
executor behavior: starting from a state with `booking_tool_steps = s`, it
performs at most `MAX_TOOL_STEPS - s` tool-executor rounds — continuation is
refused once `booking_tool_steps ≥ MAX_TOOL_STEPS` and each tool-executor
round increments `booking_tool_steps` by exactly one; independently, the
loop ends immediately (zero further rounds) as soon as `repeat_tool_count`
reaches 2 or the latest generated message carries no tool call, regardless
of `MAX_TOOL_STEPS`. -/
theorem booking_loop_terminates (MAX_TOOL_STEPS : Int) (gen : BookingGen)
    (texec : ToolExec) (s : State) :
    (bookingLoop MAX_TOOL_STEPS gen texec s).2 ≤
      (MAX_TOOL_STEPS - s.booking_tool_steps).toNat ∧
    (∀ t : State, t.booking_tool_steps ≥ MAX_TOOL_STEPS →
      booking_should_continue MAX_TOOL_STEPS t = false) ∧
    (∀ t : State,
      (bookingToolStep texec t).booking_tool_steps = t.booking_tool_steps + 1) ∧
    ((bookingGenStep gen s).repeat_tool_count ≥ 2 →
      (bookingLoop MAX_TOOL_STEPS gen texec s).2 = 0) ∧
    ((gen s).id = none →
      ((gen s).role ≠ Role.assistant ∨ (gen s).tool_calls = []) →
      (bookingLoop MAX_TOOL_STEPS gen texec s).2 = 0) := by
  refine ⟨?_, ?_, fun t => rfl, ?_, ?_⟩
  · exact bookingLoop_rounds_le MAX_TOOL_STEPS gen texec
      (MAX_TOOL_STEPS - s.booking_tool_steps).toNat s le_rfl
  · intro t hge
    simp [booking_should_continue, hge]
  · intro hrep
    have hf : booking_should_continue MAX_TOOL_STEPS (bookingGenStep gen s) = false :=
      booking_should_continue_repeat MAX_TOOL_STEPS (bookingGenStep gen s) hrep
    rw [bookingLoop]
    simp [hf]
  · intro hid hnc
    have hf : booking_should_continue MAX_TOOL_STEPS (bookingGenStep gen s) = false :=
      booking_should_continue_no_toolcall MAX_TOOL_STEPS (bookingGenStep gen s)
        (gen s) (bookingGenStep_getLast gen s hid) hnc
    rw [bookingLoop]
    simp [hf]

/-- Witness for C1: a generator proposing no tool call ends the loop with
zero tool-executor rounds. -/
theorem booking_loop_terminates_witness :
    (bookingLoop 4 genNoTools execOne baseState).2 = 0 :=
  (booking_loop_terminates 4 genNoTools execOne baseState).2.2.2.2 rfl (Or.inr rfl)

/-! ## Claim C9: the step ceiling has no dedicated error kind (corrected) -/

/-- Counterexample to C9 as stated: the step-ceiling (recursion limit)
exception text classifies as `INTERNAL_ERROR` — the code defines no
`STEP_LIMIT_EXCEEDED` kind at all. -/
theorem step_limit_kind_cex :
    (classify_exception RECURSION_LIMIT_MSG).kind = "INTERNAL_ERROR" ∧
    ¬ (classify_exception RECURSION_LIMIT_MSG).kind = "STEP_LIMIT_EXCEEDED" := by
  decide

/-- C9 (amended): every classified error carries one of the four stable
kinds, never a dedicated `STEP_LIMIT_EXCEEDED`; the recursion-limit
exception raised when a turn exceeds the per-turn step ceiling
(`recursion_limit = 20`) classifies as `INTERNAL_ERROR` (500,
non-retryable), is never retried by the invocation service, and is
re-raised to the caller unchanged on the first failing attempt. -/
theorem step_limit_internal_error (msg : String) (σ : Type) (run : RunOracle σ)
    (max_retries : Nat) :
    ((classify_exception msg).kind = "MODEL_QUOTA_EXCEEDED" ∨
     (classify_exception msg).kind = "TRANSIENT_UPSTREAM_ERROR" ∨
     (classify_exception msg).kind = "UPSTREAM_BAD_REQUEST" ∨
     (classify_exception msg).kind = "INTERNAL_ERROR") ∧
    (classify_exception msg).kind ≠ "STEP_LIMIT_EXCEEDED" ∧
    classify_exception RECURSION_LIMIT_MSG =
      { kind := "INTERNAL_ERROR", message := "Unexpected server error.",
        status_code := 500, retryable := false, raw := some RECURSION_LIMIT_MSG } ∧
    (run 0 = Except.error RECURSION_LIMIT_MSG →
      invokeWithRetry max_retries run = Except.error RECURSION_LIMIT_MSG) := by
  have hkinds : (classify_exception msg).kind = "MODEL_QUOTA_EXCEEDED" ∨
      (classify_exception msg).kind = "TRANSIENT_UPSTREAM_ERROR" ∨
      (classify_exception msg).kind = "UPSTREAM_BAD_REQUEST" ∨
      (classify_exception msg).kind = "INTERNAL_ERROR" := by
    simp only [classify_exception]
    split
    · exact Or.inl rfl
    · split
      · exact Or.inr (Or.inl rfl)
      · split
        · exact Or.inr (Or.inr (Or.inl rfl))
        · exact Or.inr (Or.inr (Or.inr rfl))
  have hi : classify_exception RECURSION_LIMIT_MSG =
      { kind := "INTERNAL_ERROR", message := "Unexpected server error.",
        status_code := 500, retryable := false, raw := some RECURSION_LIMIT_MSG } := by
    decide
  refine ⟨hkinds, ?_, hi, ?_⟩
  · rcases hkinds with h | h | h | h <;> rw [h] <;> decide
  · intro h0
    unfold invokeWithRetry
    rw [retryFrom]
    rw [h0]
    dsimp only
    have hret : (classify_exception RECURSION_LIMIT_MSG).retryable = false := by
      rw [hi]
    rw [dif_pos (Or.inl hret)]

/-- Witness for C9 (amended): the recursion-limit error surfaces unchanged
from the retry wrapper on the first attempt. -/
theorem step_limit_internal_error_witness :
    invokeWithRetry 1
        (fun _ => (Except.error RECURSION_LIMIT_MSG : Except String State)) =
      Except.error RECURSION_LIMIT_MSG :=
  (step_limit_internal_error RECURSION_LIMIT_MSG State
    (fun _ => Except.error RECURSION_LIMIT_MSG) 1).2.2.2 rfl

/-! ## Claim C6: the retry policy of the invocation service -/

/-- Success-trace characterization of the retry loop from attempt `a`: the
succeeding attempt `n` stays within the budget, every earlier attempt failed
with a retryable classification, and the recorded back-off sleeps are
exactly the linearly increasing `0.5 × attemptNumber` sequence. -/
theorem retryFrom_ok_trace {σ : Type} (max_retries : Nat) (run : RunOracle σ) :
    ∀ fuel a st sleeps, a ≤ max_retries → max_retries + 1 - a ≤ fuel →
      retryFrom max_retries run a = Except.ok (st, sleeps) →
      ∃ n, a ≤ n ∧ n ≤ max_retries ∧ run n = Except.ok st ∧
        (∀ i, a ≤ i → i < n → ∃ ei, run i = Except.error ei ∧
          (classify_exception ei).retryable = true) ∧
        sleeps = (List.range (n - a)).map
          (fun k => ((1 : ℚ) / 2) * ((a + k : Nat) + 1)) := by
  intro fuel
  induction fuel with
  | zero =>
    intro a st sleeps ha hf
    omega
  | succ m ih =>
    intro a st sleeps ha hf hr
    rw [retryFrom] at hr
    cases hrun : run a with
    | ok v =>
      rw [hrun] at hr
      dsimp only at hr
      injection hr with hr1
      injection hr1 with hst hsleeps
      refine ⟨a, le_refl a, ha, by rw [hrun, hst], ?_, ?_⟩
      · intro i h1 h2
        omega
      · rw [← hsleeps]
        simp
    | error e =>
      rw [hrun] at hr
      dsimp only at hr
      by_cases hcond : (classify_exception e).retryable = false ∨ a ≥ max_retries
      · rw [dif_pos hcond] at hr
        exact absurd hr (by simp)
      · rw [dif_neg hcond] at hr
        push_neg at hcond
        obtain ⟨hret, hlt⟩ := hcond
        have hret2 : (classify_exception e).retryable = true := by
          cases hb : (classify_exception e).retryable
          · exact absurd hb hret
          · rfl
        cases hrec : retryFrom max_retries run (a + 1) with
        | ok p =>
          obtain ⟨st', sleeps'⟩ := p
          rw [hrec] at hr
          dsimp only at hr
          injection hr with hr1
          injection hr1 with hst hsleeps
          obtain ⟨n, hn1, hn2, hn3, hn4, hn5⟩ :=
            ih (a + 1) st' sleeps' (by omega) (by omega) hrec
          refine ⟨n, by omega, hn2, by rw [hn3, hst], ?_, ?_⟩
          · intro i h1 h2
            by_cases hia : i = a
            · exact ⟨e, by rw [hia, hrun], hret2⟩
            · exact hn4 i (by omega) h2
          · rw [← hsleeps, hn5]
            have hna : n - a = (n - (a + 1)) + 1 := by omega
            rw [hna, List.range_succ_eq_map, List.map_cons, List.map_map]
            refine List.cons_eq_cons.mpr ⟨by push_cast; ring, ?_⟩
            apply List.map_congr_left
            intro k _
            simp only [Function.comp]
            push_cast
            ring
        | error e2 =>
          rw [hrec] at hr
          dsimp only at hr
          exact absurd hr (by simp)

/-- Error-trace characterization of the retry loop from attempt `a`: the
surfaced exception is the one raised at some attempt `n` within the budget,
surfaced because it classified non-retryable or because the budget was
exhausted there, and every earlier attempt failed retryable. -/
theorem retryFrom_error_trace {σ : Type} (max_retries : Nat) (run : RunOracle σ) :
    ∀ fuel a e, a ≤ max_retries → max_retries + 1 - a ≤ fuel →
      retryFrom max_retries run a = Except.error e →
      ∃ n, a ≤ n ∧ n ≤ max_retries ∧ run n = Except.error e ∧
        ((classify_exception e).retryable = false ∨ n = max_retries) ∧
        ∀ i, a ≤ i → i < n → ∃ ei, run i = Except.error ei ∧
          (classify_exception ei).retryable = true := by
  intro fuel
  induction fuel with
  | zero =>
    intro a e ha hf
    omega
  | succ m ih =>
    intro a e ha hf hr
    rw [retryFrom] at hr
    cases hrun : run a with
    | ok v =>
      rw [hrun] at hr
      dsimp only at hr
      exact absurd hr (by simp)
    | error e1 =>
      rw [hrun] at hr
      dsimp only at hr
      by_cases hcond : (classify_exception e1).retryable = false ∨ a ≥ max_retries
      · rw [dif_pos hcond] at hr
        injection hr with hr1
        subst hr1
        refine ⟨a, le_refl a, ha, hrun, ?_, ?_⟩
        · rcases hcond with h | h
          · exact Or.inl h
          · exact Or.inr (by omega)
        · intro i h1 h2
          omega
      · rw [dif_neg hcond] at hr
        push_neg at hcond
        obtain ⟨hret, hlt⟩ := hcond
        have hret2 : (classify_exception e1).retryable = true := by
          cases hb : (classify_exception e1).retryable
          · exact absurd hb hret
          · rfl
        cases hrec : retryFrom max_retries run (a + 1) with
        | ok p =>
          rw [hrec] at hr
          obtain ⟨st', sleeps'⟩ := p
          dsimp only at hr
          exact absurd hr (by simp)
        | error e2 =>
          rw [hrec] at hr
          dsimp only at hr
          injection hr with hr1
          obtain ⟨n, hn1, hn2, hn3, hn4, hn5⟩ :=
            ih (a + 1) e2 (by omega) (by omega) hrec
          rw [hr1] at hn3 hn4
          refine ⟨n, by omega, hn2, hn3, hn4, ?_⟩
          intro i h1 h2
          by_cases hia : i = a
          · exact ⟨e1, by rw [hia, hrun], hret2⟩
          · exact hn5 i (by omega) h2

/-- C6: the invocation service retries a failed whole-turn run only when the
raised exception classifies as retryable and the attempt count has not
exceeded `max_retries` (env default 1, `MAX_RETRIES_DEFAULT`), sleeping
`0.5 × attemptNumber` seconds (a linearly increasing back-off) before each
retry of the same input; a non-retryable classification or exhaustion of the
budget re-raises the exception to the caller unchanged.  Stated over every
possible sequence of run outcomes as a trace characterization. -/
theorem invoke_retry_policy {σ : Type} (max_retries : Nat) (run : RunOracle σ) :
    (∀ st, run 0 = Except.ok st →
      invokeWithRetry max_retries run = Except.ok (st, [])) ∧
    (∀ st sleeps, invokeWithRetry max_retries run = Except.ok (st, sleeps) →
      ∃ n, n ≤ max_retries ∧ run n = Except.ok st ∧
        (∀ i, i < n → ∃ ei, run i = Except.error ei ∧
          (classify_exception ei).retryable = true) ∧
        sleeps = (List.range n).map (fun k => ((1 : ℚ) / 2) * ((k : Nat) + 1))) ∧
    (∀ e, invokeWithRetry max_retries run = Except.error e →
      ∃ n, n ≤ max_retries ∧ run n = Except.error e ∧
        ((classify_exception e).retryable = false ∨ n = max_retries) ∧
        ∀ i, i < n → ∃ ei, run i = Except.error ei ∧
          (classify_exception ei).retryable = true) ∧
    MAX_RETRIES_DEFAULT = 1 := by
  refine ⟨?_, ?_, ?_, rfl⟩
  · intro st h0
    unfold invokeWithRetry
    rw [retryFrom, h0]
  · intro st sleeps hr
    obtain ⟨n, -, hn2, hn3, hn4, hn5⟩ :=
      retryFrom_ok_trace max_retries run (max_retries + 1) 0 st sleeps
        (Nat.zero_le _) (by omega) hr
    refine ⟨n, hn2, hn3, fun i hi => hn4 i (Nat.zero_le i) hi, ?_⟩
    rw [hn5]
    simp
  · intro e hr
    obtain ⟨n, -, hn2, hn3, hn4, hn5⟩ :=
      retryFrom_error_trace max_retries run (max_retries + 1) 0 e
        (Nat.zero_le _) (by omega) hr
    exact ⟨n, hn2, hn3, hn4, fun i hi => hn5 i (Nat.zero_le i) hi⟩

/-- Witness for C6: a run that succeeds on the first attempt returns its
state with no back-off sleeps performed. -/
theorem invoke_retry_policy_witness :
    invokeWithRetry 1 (fun _ => (Except.ok 7 : Except String Nat)) =
      Except.ok (7, []) :=
  (invoke_retry_policy 1 (fun _ => Except.ok 7)).1 7 rfl

/-! ## Claim C7: `core_book_slot` as a conditional state transition -/

/-- Two rows matching the same slot key have equal keys. -/
theorem slotMatches_key_eq (svc d t : String) (r1 r2 : Slot)
    (h1 : slotMatches svc d t r1 = true) (h2 : slotMatches svc d t r2 = true) :
    (r1.service, r1.date, r1.time) = (r2.service, r2.date, r2.time) := by
  simp only [slotMatches, Bool.and_eq_true, beq_iff_eq] at h1 h2
  obtain ⟨⟨hs1, hd1⟩, ht1⟩ := h1
  obtain ⟨⟨hs2, hd2⟩, ht2⟩ := h2
  rw [hs1, hd1, ht1, hs2, hd2, ht2]

/-- Under the unique-key schema assumption, any row matching the key of a
matching row `r` is `r` itself. -/
theorem uniqueKeys_match_eq (db : Store) (huniq : uniqueKeys db)
    (svc d t : String) (r : Slot) (hr : r ∈ db)
    (hm : slotMatches svc d t r = true) :
    ∀ x ∈ db, slotMatches svc d t x = true → x = r := by
  intro x hx hmx
  by_contra hne
  have hsymm : Symmetric
      (fun a b : Slot => (a.service, a.date, a.time) ≠ (b.service, b.date, b.time)) :=
    fun a b hab hba => hab hba.symm
  exact huniq.forall hsymm hx hr hne (slotMatches_key_eq svc d t x r hmx hm)

/-- `core_book_slot` when no row has the requested key: the store is
unchanged and the result is `"not_found"`. -/
theorem core_book_slot_not_found (db : Store) (svc d t nm ph : String)
    (hnone : ∀ x ∈ db, slotMatches svc d t x = false) :
    core_book_slot db svc d t nm ph = (db, "not_found") := by
  have hcond : ∀ x ∈ db, (slotMatches svc d t x && x.status == "free") = false := by
    intro x hx
    simp [hnone x hx]
  have hmap : (db.map fun r =>
      if slotMatches svc d t r && r.status == "free" then
        { r with status := "booked", customer_name := nm, phone := ph }
      else r) = db := by
    apply map_eq_self_of_fixes
    intro x hx
    simp [hcond x hx]
  have hfilt : (db.filter fun r => slotMatches svc d t r && r.status == "free") = [] :=
    List.filter_eq_nil_iff.mpr fun x hx => by simp [hcond x hx]
  have hfind : db.find? (slotMatches svc d t) = none :=
    List.find?_eq_none.mpr fun x hx => by simp [hnone x hx]
  simp only [core_book_slot]
  rw [hmap, hfilt]
  simp [core_check_slot_availability, hfind]

/-- `core_book_slot` when the keyed row exists but is not free: the store is
unchanged and the result is `"booked"`. -/
theorem core_book_slot_booked (db : Store) (huniq : uniqueKeys db)
    (svc d t nm ph : String) (r : Slot) (hr : r ∈ db)
    (hm : slotMatches svc d t r = true) (hnf : r.status ≠ "free") :
    core_book_slot db svc d t nm ph = (db, "booked") := by
  have huni := uniqueKeys_match_eq db huniq svc d t r hr hm
  have hcond : ∀ x ∈ db, (slotMatches svc d t x && x.status == "free") = false := by
    intro x hx
    by_cases hmx : slotMatches svc d t x = true
    · have hxr : x = r := huni x hx hmx
      subst hxr
      simp [hmx, hnf]
    · have hmx2 : slotMatches svc d t x = false := eq_false_of_ne_true hmx
      simp [hmx2]
  have hmap : (db.map fun x =>
      if slotMatches svc d t x && x.status == "free" then
        { x with status := "booked", customer_name := nm, phone := ph }
      else x) = db := by
    apply map_eq_self_of_fixes
    intro x hx
    simp [hcond x hx]
  have hfilt : (db.filter fun x => slotMatches svc d t x && x.status == "free") = [] :=
    List.filter_eq_nil_iff.mpr fun x hx => by simp [hcond x hx]
  have hex : ∃ x, db.find? (slotMatches svc d t) = some x := by
    cases hfind : db.find? (slotMatches svc d t) with
    | some x => exact ⟨x, rfl⟩
    | none => exact absurd hm (List.find?_eq_none.mp hfind r hr)
  obtain ⟨x, hfind⟩ := hex
  have hxr : x = r :=
    huni x (List.mem_of_find?_eq_some hfind) (List.find?_some hfind)
  have hcheck : core_check_slot_availability db svc d t = "booked" := by
    simp only [core_check_slot_availability, hfind]
    subst hxr
    rw [if_neg hnf]
  simp only [core_book_slot]
  rw [hmap, hfilt]
  simp [hcheck]

/-- `core_book_slot` when the keyed row exists and is free: exactly that row
transitions to booked with the given customer data, the rest of the store is
untouched, and the result is `"success"`. -/
theorem core_book_slot_free (db : Store) (huniq : uniqueKeys db)
    (svc d t nm ph : String) (pre post : List Slot) (r : Slot)
    (hdb : db = pre ++ r :: post)
    (hm : slotMatches svc d t r = true) (hfree : r.status = "free") :
    core_book_slot db svc d t nm ph =
      (pre ++ { r with status := "booked", customer_name := nm, phone := ph } :: post,
       "success") := by
  subst hdb
  have hpw := huniq
  simp only [uniqueKeys, List.pairwise_append, List.pairwise_cons] at hpw
  obtain ⟨hpre, ⟨hrpost, hpost⟩, hbetween⟩ := hpw
  have hprem : ∀ x ∈ pre, slotMatches svc d t x = false := by
    intro x hx
    by_cases hmx : slotMatches svc d t x = true
    · exact absurd (slotMatches_key_eq svc d t x r hmx hm)
        (hbetween x hx r (by simp))
    · exact eq_false_of_ne_true hmx
  have hpostm : ∀ x ∈ post, slotMatches svc d t x = false := by
    intro x hx
    by_cases hmx : slotMatches svc d t x = true
    · exact absurd (slotMatches_key_eq svc d t r x hm hmx) (hrpost x hx)
    · exact eq_false_of_ne_true hmx
  have hfilt : ((pre ++ r :: post).filter
      fun x => slotMatches svc d t x && x.status == "free") = [r] := by
    have h1 : (pre.filter fun x => slotMatches svc d t x && x.status == "free") = [] :=
      List.filter_eq_nil_iff.mpr fun x hx => by simp [hprem x hx]
    have h2 : (post.filter fun x => slotMatches svc d t x && x.status == "free") = [] :=
      List.filter_eq_nil_iff.mpr fun x hx => by simp [hpostm x hx]
    rw [List.filter_append, h1, List.filter_cons_of_pos (by simp [hm, hfree]), h2]
    rfl
  have hmap : ((pre ++ r :: post).map fun x =>
      if slotMatches svc d t x && x.status == "free" then
        { x with status := "booked", customer_name := nm, phone := ph }
      else x) =
      pre ++ { r with status := "booked", customer_name := nm, phone := ph } :: post := by
    rw [List.map_append, List.map_cons]
    have h1 : (pre.map fun x =>
        if slotMatches svc d t x && x.status == "free" then
          { x with status := "booked", customer_name := nm, phone := ph }
        else x) = pre :=
      map_eq_self_of_fixes _ _ fun x hx => by simp [hprem x hx]
    have h2 : (post.map fun x =>
        if slotMatches svc d t x && x.status == "free" then
          { x with status := "booked", customer_name := nm, phone := ph }
        else x) = post :=
      map_eq_self_of_fixes _ _ fun x hx => by simp [hpostm x hx]
    have h3 : (if slotMatches svc d t r && r.status == "free" then
        { r with status := "booked", customer_name := nm, phone := ph }
      else r) = { r with status := "booked", customer_name := nm, phone := ph } := by
      simp [hm, hfree]
    rw [h1, h2, h3]
  simp only [core_book_slot]
  rw [hmap, hfilt]
  simp

/-- C7: `core_book_slot` is a conditional state transition on the
appointment store (under the unique-slot-key schema): it returns
`"success"` if and only if a row with the requested key existed with status
free at execution time, in which case exactly that row transitions to
booked with the given customer name and phone and every other row is
untouched; a keyed row that is not free yields `"booked"` and no keyed row
yields `"not_found"`, in both cases leaving the store unchanged — hence of
two sequential booking attempts for the same free slot, the first returns
`"success"` and the second observes `"booked"`. -/
theorem core_book_slot_conditional_transition (db : Store) (huniq : uniqueKeys db)
    (service date time nm ph nm2 ph2 : String) :
    ((core_book_slot db service date time nm ph).2 = "success" ↔
      ∃ r ∈ db, slotMatches service date time r = true ∧ r.status = "free") ∧
    (∀ pre r post, db = pre ++ r :: post →
      slotMatches service date time r = true → r.status = "free" →
      core_book_slot db service date time nm ph =
        (pre ++ { r with status := "booked", customer_name := nm, phone := ph } :: post,
         "success")) ∧
    (∀ r ∈ db, slotMatches service date time r = true → r.status ≠ "free" →
      core_book_slot db service date time nm ph = (db, "booked")) ∧
    ((∀ r ∈ db, slotMatches service date time r = false) →
      core_book_slot db service date time nm ph = (db, "not_found")) ∧
    (∀ pre r post, db = pre ++ r :: post →
      slotMatches service date time r = true → r.status = "free" →
      (core_book_slot (core_book_slot db service date time nm ph).1
          service date time nm2 ph2).2 = "booked") := by
  have hfreecase := core_book_slot_free db huniq service date time nm ph
  have hbookedcase := core_book_slot_booked db huniq service date time nm ph
  have hnfcase := core_book_slot_not_found db service date time nm ph
  refine ⟨⟨?_, ?_⟩, fun pre r post hdb hm hfree => hfreecase pre post r hdb hm hfree,
    hbookedcase, hnfcase, ?_⟩
  · intro hsucc
    by_contra hnex
    push_neg at hnex
    by_cases hex : ∃ x ∈ db, slotMatches service date time x = true
    · obtain ⟨x, hx, hmx⟩ := hex
      have hnfree : x.status ≠ "free" := fun hf => by
        have := hnex x hx
        rw [eq_true hmx] at this
        exact absurd hf (by simpa using this)
      rw [hbookedcase x hx hmx hnfree] at hsucc
      simp at hsucc
    · push_neg at hex
      have hnone : ∀ x ∈ db, slotMatches service date time x = false :=
        fun x hx => eq_false_of_ne_true (hex x hx)
      rw [hnfcase hnone] at hsucc
      simp at hsucc
  · intro ⟨r, hr, hm, hfree⟩
    obtain ⟨pre, post, hdb⟩ := List.append_of_mem hr
    rw [hfreecase pre post r hdb hm hfree]
  · intro pre r post hdb hm hfree
    rw [hfreecase pre post r hdb hm hfree]
    have huniq2 : uniqueKeys
        (pre ++ { r with status := "booked", customer_name := nm, phone := ph } :: post) := by
      have hpw := huniq
      rw [hdb] at hpw
      simp only [uniqueKeys, List.pairwise_append, List.pairwise_cons] at hpw ⊢
      obtain ⟨h1, ⟨h2, h3⟩, h4⟩ := hpw
      refine ⟨h1, ⟨h2, h3⟩, ?_⟩
      intro a ha b hb
      rcases List.mem_cons.mp hb with rfl | hb2
      · exact h4 a ha r (List.mem_cons_self r post)
      · exact h4 a ha b (List.mem_cons_of_mem r hb2)
    have hm2 : slotMatches service date time
        { r with status := "booked", customer_name := nm, phone := ph } = true := hm
    have hmem2 : ({ r with status := "booked", customer_name := nm, phone := ph } : Slot) ∈
        pre ++ { r with status := "booked", customer_name := nm, phone := ph } :: post := by
      simp
    have hres := core_book_slot_booked _ huniq2 service date time
      nm2 ph2 _ hmem2 hm2 (by simp)
    rw [hres]

/-- Witness for C7 on a concrete two-row store: booking the free 10:00 slot
succeeds and books exactly that row; re-booking it observes `"booked"`. -/
theorem core_book_slot_conditional_transition_witness :
    core_book_slot storeW "haircut" "2026-10-14" "10:00" "Alex" "555-0101" =
      ([{ service := "haircut", date := "2026-10-14", time := "10:00",
          status := "booked", customer_name := "Alex", phone := "555-0101" },
        { service := "haircut", date := "2026-10-14", time := "11:00",
          status := "booked", customer_name := "Sam", phone := "555-0100" }],
       "success") ∧
    (core_book_slot
        (core_book_slot storeW "haircut" "2026-10-14" "10:00" "Alex" "555-0101").1
        "haircut" "2026-10-14" "10:00" "Brin" "555-0102").2 = "booked" := by
  have h := core_book_slot_conditional_transition storeW (by decide)
    "haircut" "2026-10-14" "10:00" "Alex" "555-0101" "Brin" "555-0102"
  refine ⟨?_, ?_⟩
  · have h2 := h.2.1 []
      { service := "haircut", date := "2026-10-14", time := "10:00",
        status := "free", customer_name := "", phone := "" }
      [{ service := "haircut", date := "2026-10-14", time := "11:00",
         status := "booked", customer_name := "Sam", phone := "555-0100" }]
      (by decide) (by decide) (by decide)
    rw [h2]
    rfl
  · exact h.2.2.2.2 []
      { service := "haircut", date := "2026-10-14", time := "10:00",
        status := "free", customer_name := "", phone := "" }
      [{ service := "haircut", date := "2026-10-14", time := "11:00",
         status := "booked", customer_name := "Sam", phone := "555-0100" }]
      (by decide) (by decide) (by decide)

end CobAgent
